import Mathlib

/-
Verification of the linkUP semantic-search engine.

The repository contains three Express server variants:
 - a vector-search server (src/unnamed/part_001): spawns a Python ranker,
   then formats each result with the score 1.0 - index * 0.1; on any
   failure of the ranker subprocess it responds 500.
 - a lexical server (src/unnamed/part_002): scoreOpportunity computes
   overlap * 10 + tagBoost * 5 + recencyBoost over the first 500 catalog
   documents, sorts descending by score (stable JS Array.sort), and slices
   to the limit (default 10).
 - a demo server inside build.sh with the same vector-search structure.

Numbers are modelled as rationals; JS Date.now() becomes an explicit
parameter giving the current epoch time in milliseconds.
-/

namespace LinkUp

/-- Character-list version of the JS String.prototype.startsWith check. -/
def charsStartWith : List Char → List Char → Bool
  | [], _ => true
  | _ :: _, [] => false
  | a :: as, b :: bs => a == b && charsStartWith as bs

/-- Character-list version of the JS String.prototype.includes check:
true when the needle occurs as a contiguous substring of the haystack. -/
def charsContain (needle : List Char) : List Char → Bool
  | [] => charsStartWith needle []
  | b :: bs => charsStartWith needle (b :: bs) || charsContain needle bs

/-- hay.includes(t) from the JS source. -/
def jsIncludes (hay needle : String) : Bool :=
  charsContain needle.data hay.data

/-- String.prototype.toLowerCase, mapped characterwise. -/
def jsToLower (s : String) : String :=
  String.mk (s.data.map Char.toLower)

/-- A word character in the sense of the JS regex \W used by
q.split: letters, digits, underscore. -/
def isWordChar (c : Char) : Bool :=
  c.isAlphanum || c == '_'

/-- Splits a character list into maximal runs of word characters.
Equivalent to q.split on runs of non-word characters followed by
filter(Boolean), which drops the empty fragments. -/
def splitTokensAux : List Char → List Char → List String
  | [], acc => if acc.isEmpty then [] else [String.mk acc.reverse]
  | c :: cs, acc =>
    if isWordChar c then splitTokensAux cs (c :: acc)
    else if acc.isEmpty then splitTokensAux cs []
    else String.mk acc.reverse :: splitTokensAux cs []

/-- Tokenization in scoreOpportunity (src/unnamed/part_002 lines 70-71):
(query || '').toLowerCase().split(non-word runs).filter(Boolean). -/
def tokenizeQuery (query : Option String) : List String :=
  splitTokensAux (jsToLower (query.getD "")).data []

/-- tags subdocument of an opportunity; only the categories array is read
by the scorer. -/
structure Tags where
  categories : Option (List String) := none
deriving DecidableEq

/-- last_updated subdocument; date is the epoch time in milliseconds. -/
structure LastUpdated where
  date : Option ℚ := none
deriving DecidableEq

/-- The fields of an Opportunity document that the semantic-search code
reads. Absent (undefined) fields are none. -/
structure Opportunity where
  organization_name : Option String := none
  activity_name : Option String := none
  activity_description : Option String := none
  program_description : Option String := none
  tags : Option Tags := none
  last_updated : Option LastUpdated := none
deriving DecidableEq

/-- The category tags used by the scorer: tags.categories when present,
otherwise the empty array (the JS code spreads [] in that case). -/
def catsOf (o : Opportunity) : List String :=
  match o.tags with
  | none => []
  | some t => t.categories.getD []

/-- The searchable haystack of scoreOpportunity (part_002 lines 74-80):
organization name, activity name, both descriptions and the category
tags, with absent or empty entries dropped by filter(Boolean), joined
with spaces and lowercased. -/
def hayOf (o : Opportunity) : String :=
  jsToLower (String.intercalate " "
    ((([o.organization_name, o.activity_name, o.activity_description,
        o.program_description].filterMap id) ++ catsOf o).filter
      (fun s => !(s == ""))))

/-- The token-overlap loop of scoreOpportunity (part_002 lines 83-86). -/
def overlapLoop (hay : String) (tokens : List String) : Nat :=
  tokens.foldl (fun acc t => if jsIncludes hay t then acc + 1 else acc) 0

/-- The tag-boost double loop of scoreOpportunity (part_002 lines 89-94). -/
def tagBoostLoop (cats : List String) (tokens : List String) : Nat :=
  cats.foldl
    (fun acc cat =>
      tokens.foldl
        (fun a t => if jsIncludes (jsToLower cat) t then a + 1 else a) acc)
    0

/-- Milliseconds per day, the divisor 1000 * 60 * 60 * 24 in the source. -/
def msPerDay : ℚ := 1000 * 60 * 60 * 24

/-- The recency boost of scoreOpportunity (part_002 lines 97-101):
max(0, 10 - days/30) when last_updated.date exists, otherwise 0.
now is the value of Date.now() at scoring time. -/
def recencyBoostOf (o : Opportunity) (now : ℚ) : ℚ :=
  match o.last_updated with
  | none => 0
  | some lu =>
    match lu.date with
    | none => 0
    | some d => max 0 (10 - ((now - d) / msPerDay) / 30)

/-- scoreOpportunity with the tokenization factored out: the final line
overlap * 10 + tagBoost * 5 + recencyBoost of part_002 line 104. -/
def scoreTokens (o : Opportunity) (tokens : List String) (now : ℚ) : ℚ :=
  (overlapLoop (hayOf o) tokens : ℚ) * 10
    + (tagBoostLoop (catsOf o) tokens : ℚ) * 5
    + recencyBoostOf o now

/-- scoreOpportunity from src/unnamed/part_002 lines 68-105. -/
def scoreOpportunity (o : Opportunity) (query : Option String) (now : ℚ) : ℚ :=
  scoreTokens o (tokenizeQuery query) now

/-- The parsed value of the limit query parameter as the JS code sees it
after the line limit = req.query.limit ? Number(req.query.limit) : 10:
absent (or empty, hence falsy) parameter, a NaN from Number, or a
numeric value. -/
inductive LimitParam where
  | absent
  | nan
  | num (v : ℚ)
deriving DecidableEq

/-- The slice bound expression of part_002 line 127:
limit && Number(limit) > 0 ? Number(limit) : 10. An absent parameter was
already replaced by 10; 0 and NaN are falsy; negative values fail the
> 0 test; all of those fall back to 10. -/
def effLimit : LimitParam → ℚ
  | .absent => 10
  | .nan => 10
  | .num v => if 0 < v then v else 10

/-- Array.prototype.slice truncates its end argument toward zero; the
effective bound is always positive here, so this is the floor. -/
def sliceBound (p : LimitParam) : Nat :=
  ⌊effLimit p⌋.toNat

/-- One entry of the response array: {score, opportunity}. -/
structure ScoredResult where
  score : ℚ
  opportunity : Opportunity
deriving DecidableEq

/-- The sort comparator of part_002 line 126, (a, b) => b.score - a.score:
a may stay before b exactly when b.score <= a.score. JS Array.sort is
stable per the ECMAScript specification, so the sort is modelled by the
stable List.mergeSort under this relation. -/
def scoreLe (a b : ℚ × Opportunity) : Bool :=
  decide (b.1 ≤ a.1)

/-- part_002 lines 120-123: fetch at most 500 candidate documents and
score each with scoreOpportunity. The catalog list is the store content
in insertion order. -/
def scoredCandidates (catalog : List Opportunity) (query : Option String)
    (now : ℚ) : List (ℚ × Opportunity) :=
  (catalog.take 500).map (fun doc => (scoreOpportunity doc query now, doc))

/-- part_002 line 126: scored.sort((a, b) => b.score - a.score). -/
def sortedScored (catalog : List Opportunity) (query : Option String)
    (now : ℚ) : List (ℚ × Opportunity) :=
  (scoredCandidates catalog query now).mergeSort scoreLe

/-- part_002 line 127: slice to the effective limit and wrap each entry
as {score, opportunity}. -/
def lexResults (catalog : List Opportunity) (query : Option String)
    (p : LimitParam) (now : ℚ) : List ScoredResult :=
  ((sortedScored catalog query now).take (sliceBound p)).map
    (fun s => ⟨s.1, s.2⟩)

/-- JS falsiness of the searchQuery value: undefined or the empty
string. The typeof check never fires for a present route param. -/
def jsFalsyStr : Option String → Bool
  | none => true
  | some s => s == ""

/-- Responses of the lexical semantic-search handler. -/
inductive LexResponse where
  | ok (query : String) (results : List ScoredResult)
  | badRequest (error : String)
deriving DecidableEq

/-- The GET /api/semantic-search/:searchQuery handler of
src/unnamed/part_002 lines 111-131. -/
def semanticSearchLex (catalog : List Opportunity) (query : Option String)
    (p : LimitParam) (now : ℚ) : LexResponse :=
  if jsFalsyStr query then
    .badRequest "Missing or invalid searchQuery in URL"
  else
    .ok (query.getD "") (lexResults catalog query p now)

/-- The result formatting of src/unnamed/part_001 lines 93-96: the list
returned by the Python ranker is mapped to {score, opportunity} pairs
whose score is 1.0 - index * 0.1, a function of the rank alone. -/
def part001Format (vectorResults : List Opportunity) : List ScoredResult :=
  vectorResults.mapIdx (fun index opportunity => ⟨1 - (index : ℚ) / 10, opportunity⟩)

/-- Responses of the vector semantic-search handler. -/
inductive VecResponse where
  | ok (query : String) (results : List ScoredResult) (searchType : String)
      (totalFound : Nat)
  | badRequest (error : String)
  | serverError (error : String) (details : String)
deriving DecidableEq

/-- The GET /api/semantic-search/:searchQuery handler of
src/unnamed/part_001 lines 78-112. The outcome of the vectorSearch
subprocess call is passed in: an error value when the Python process
exits non-zero or its output fails to parse, otherwise the parsed list.
A rejected promise is caught and answered with a 500 response. -/
def semanticSearchVec (query : Option String)
    (embedOutcome : Except String (List Opportunity)) : VecResponse :=
  if jsFalsyStr query then
    .badRequest "Missing or invalid searchQuery in URL"
  else
    match embedOutcome with
    | .error e => .serverError "Vector search failed" e
    | .ok vectorResults =>
      .ok (query.getD "") (part001Format vectorResults) "vector_similarity"
        (part001Format vectorResults).length

/-- An opportunity with no fields set. -/
def oppEmpty : Opportunity := {}

/-- An opportunity last updated at epoch time 0. -/
def oppDated : Opportunity := { last_updated := some { date := some 0 } }

/-- An opportunity whose activity name is the single word art. -/
def oppArt : Opportunity := { activity_name := some "art" }

/- Helper lemmas. -/

theorem foldl_count_eq {α : Type} (p : α → Bool) (l : List α) (acc : Nat) :
    l.foldl (fun a t => if p t then a + 1 else a) acc = acc + l.countP p := by
  induction l generalizing acc with
  | nil => simp
  | cons x xs ih =>
    simp only [List.foldl_cons, List.countP_cons, ih]
    by_cases h : p x = true
    · simp [h]; omega
    · simp [h]

theorem overlapLoop_eq_countP (hay : String) (tokens : List String) :
    overlapLoop hay tokens = tokens.countP (fun t => jsIncludes hay t) := by
  simpa using foldl_count_eq (fun t => jsIncludes hay t) tokens 0

theorem tagBoost_foldl_eq (tokens cats : List String) (acc : Nat) :
    cats.foldl
      (fun acc cat =>
        tokens.foldl
          (fun a t => if jsIncludes (jsToLower cat) t then a + 1 else a) acc)
      acc
    = acc + (cats.map (fun cat =>
        tokens.countP (jsIncludes (jsToLower cat)))).sum := by
  induction cats generalizing acc with
  | nil => simp
  | cons c cs ih =>
    simp only [List.foldl_cons, List.map_cons, List.sum_cons]
    rw [foldl_count_eq, ih]
    omega

theorem tagBoostLoop_eq_sum (cats tokens : List String) :
    tagBoostLoop cats tokens
      = (cats.map (fun cat =>
          tokens.countP (jsIncludes (jsToLower cat)))).sum := by
  unfold tagBoostLoop
  simpa using tagBoost_foldl_eq tokens cats 0

theorem sum_map_add {α : Type} (f g : α → Nat) (l : List α) :
    (l.map (fun a => f a + g a)).sum = (l.map f).sum + (l.map g).sum := by
  induction l with
  | nil => simp
  | cons x xs ih => simp [ih]; omega

theorem recencyBoostOf_nonneg (o : Opportunity) (now : ℚ) :
    0 ≤ recencyBoostOf o now := by
  cases hu : o.last_updated with
  | none => simp [recencyBoostOf, hu]
  | some lu =>
    cases hd : lu.date with
    | none => simp [recencyBoostOf, hu, hd]
    | some d =>
      simp only [recencyBoostOf, hu, hd]
      exact le_max_left (0 : ℚ) _

theorem recencyBoostOf_of_no_date (o : Opportunity) (now : ℚ)
    (h : o.last_updated.bind LastUpdated.date = none) :
    recencyBoostOf o now = 0 := by
  cases hu : o.last_updated with
  | none => simp [recencyBoostOf, hu]
  | some lu =>
    rw [hu] at h
    simp at h
    simp [recencyBoostOf, hu, h]

theorem recencyBoostOf_of_date (o : Opportunity) (now d : ℚ)
    (h : o.last_updated.bind LastUpdated.date = some d) :
    recencyBoostOf o now = max 0 (10 - ((now - d) / msPerDay) / 30) := by
  cases hu : o.last_updated with
  | none => rw [hu] at h; simp at h
  | some lu =>
    rw [hu] at h
    simp at h
    simp [recencyBoostOf, hu, h]

theorem scoreLe_trans (a b c : ℚ × Opportunity) :
    scoreLe a b = true → scoreLe b c = true → scoreLe a c = true := by
  simp only [scoreLe, decide_eq_true_eq]
  exact fun h1 h2 => le_trans h2 h1

theorem scoreLe_total (a b : ℚ × Opportunity) :
    (scoreLe a b || scoreLe b a) = true := by
  simp only [scoreLe, Bool.or_eq_true, decide_eq_true_eq]
  exact le_total b.1 a.1

theorem mergeSort_single {α : Type} (le : α → α → Bool) (x : α) :
    [x].mergeSort le = [x] :=
  List.perm_singleton.mp (List.mergeSort_perm [x] le)

theorem sliceBound_absent : sliceBound .absent = 10 := by
  norm_num [sliceBound, effLimit]
  decide

theorem lexResults_singleton (o : Opportunity) (q : Option String) (now : ℚ) :
    lexResults [o] q .absent now = [⟨scoreOpportunity o q now, o⟩] := by
  unfold lexResults sortedScored scoredCandidates
  rw [show List.take 500 [o] = [o] from rfl]
  simp only [List.map_cons, List.map_nil]
  rw [mergeSort_single]
  rw [List.take_of_length_le (by simp [sliceBound_absent])]
  simp

/-- Stated from the words of claim C2: the number of query tokens that
occur as substrings of the lowercased haystack built from organization
name, activity name, both descriptions and the category tags. -/
def overlapSpec (o : Opportunity) (tokens : List String) : Nat :=
  tokens.countP (jsIncludes (hayOf o))

/-- Stated from the words of claim C2: the number of (query token,
category tag) substring-match pairs. -/
def tagBoostSpec (o : Opportunity) (tokens : List String) : Nat :=
  ((catsOf o).map (fun cat => tokens.countP (jsIncludes (jsToLower cat)))).sum

example : tokenizeQuery (some "Art  art!") = ["art", "art"] := by decide

example : jsIncludes "fine arts" "art" = true := by decide

example : overlapLoop (hayOf { activity_name := some "art" }) (tokenizeQuery (some "art")) = 1 := by
  decide

example : scoreOpportunity { activity_name := some "art" } (some "art") 0 = 10 := by
  have h1 : overlapLoop (hayOf { activity_name := some "art" })
      (tokenizeQuery (some "art")) = 1 := by decide
  have h2 : tagBoostLoop (catsOf { activity_name := some "art" })
      (tokenizeQuery (some "art")) = 0 := by decide
  simp [scoreOpportunity, scoreTokens, h1, h2, recencyBoostOf]

/-- Claim C2: for every opportunity and every query, the lexical score
equals overlap * 10 + tagBoost * 5 + recencyBoost, where overlap counts
the query tokens occurring as substrings of the lowercased haystack,
tagBoost counts the (query token, category tag) substring matches, and
recencyBoost is max(0, 10 - days_since_last_update / 30), zero when
last-updated metadata is absent. -/
theorem lex_score_formula (o : Opportunity) (query : Option String) (now : ℚ) :
    scoreOpportunity o query now
      = (overlapSpec o (tokenizeQuery query) : ℚ) * 10
        + (tagBoostSpec o (tokenizeQuery query) : ℚ) * 5
        + recencyBoostOf o now
    ∧ (o.last_updated.bind LastUpdated.date = none → recencyBoostOf o now = 0)
    ∧ (∀ d : ℚ, o.last_updated.bind LastUpdated.date = some d →
        recencyBoostOf o now
          = max 0 (10 - ((now - d) / msPerDay) / 30)) := by
  refine ⟨?_, recencyBoostOf_of_no_date o now, fun d => recencyBoostOf_of_date o now d⟩
  unfold scoreOpportunity scoreTokens
  rw [overlapLoop_eq_countP, tagBoostLoop_eq_sum]
  rfl

/-- Witness for claim C2 at concrete inputs. -/
theorem lex_score_formula_witness :
    recencyBoostOf oppEmpty 5 = 0
    ∧ recencyBoostOf oppDated 86400000
        = max 0 (10 - (((86400000 : ℚ) - 0) / msPerDay) / 30) :=
  ⟨(lex_score_formula oppEmpty (some "kids") 5).2.1 rfl,
   (lex_score_formula oppDated (some "kids") 86400000).2.2 0 rfl⟩

/-- Claim C8: for every opportunity, including ones with missing fields,
and every query, including a missing or empty one, the lexical scorer is
total and returns a non-negative number. -/
theorem lex_score_nonneg (o : Opportunity) (query : Option String) (now : ℚ) :
    0 ≤ scoreOpportunity o query now := by
  unfold scoreOpportunity scoreTokens
  have h1 : (0 : ℚ) ≤ (overlapLoop (hayOf o) (tokenizeQuery query) : ℚ) :=
    Nat.cast_nonneg _
  have h2 : (0 : ℚ) ≤ (tagBoostLoop (catsOf o) (tokenizeQuery query) : ℚ) :=
    Nat.cast_nonneg _
  have h3 := recencyBoostOf_nonneg o now
  linarith

/-- Counterexample to claim C9: repeating a matching token in the query
text does change the lexical score, because the overlap loop counts
token occurrences, not distinct tokens. -/
theorem lex_score_token_repetition_cex :
    scoreOpportunity oppArt (some "art art") 0
      ≠ scoreOpportunity oppArt (some "art") 0 := by
  have h1 : overlapLoop (hayOf oppArt) (tokenizeQuery (some "art art")) = 2 := by
    decide
  have h2 : overlapLoop (hayOf oppArt) (tokenizeQuery (some "art")) = 1 := by
    decide
  have h3 : tagBoostLoop (catsOf oppArt) (tokenizeQuery (some "art art")) = 0 := by
    decide
  have h4 : tagBoostLoop (catsOf oppArt) (tokenizeQuery (some "art")) = 0 := by
    decide
  have h5 : recencyBoostOf oppArt 0 = 0 := recencyBoostOf_of_no_date _ _ rfl
  unfold scoreOpportunity scoreTokens
  rw [h1, h2, h3, h4, h5]
  norm_num

/-- Claim C9 as amended: the lexical score is a function of the token
list with multiplicity. The score is additive over token-list
concatenation apart from the single recency term, so each repeated
occurrence of a matching token adds its full weight again. -/
theorem lex_score_token_multiplicity (o : Opportunity) (q : Option String)
    (l1 l2 : List String) (now : ℚ) :
    scoreOpportunity o q now = scoreTokens o (tokenizeQuery q) now
    ∧ scoreTokens o (l1 ++ l2) now
        = scoreTokens o l1 now + scoreTokens o l2 now - recencyBoostOf o now := by
  refine ⟨rfl, ?_⟩
  unfold scoreTokens
  rw [overlapLoop_eq_countP, overlapLoop_eq_countP, overlapLoop_eq_countP,
    tagBoostLoop_eq_sum, tagBoostLoop_eq_sum, tagBoostLoop_eq_sum,
    List.countP_append]
  have htb :
      ((catsOf o).map (fun cat => (l1 ++ l2).countP (jsIncludes (jsToLower cat)))).sum
        = ((catsOf o).map (fun cat => l1.countP (jsIncludes (jsToLower cat)))).sum
          + ((catsOf o).map (fun cat => l2.countP (jsIncludes (jsToLower cat)))).sum := by
    rw [← sum_map_add]
    apply congrArg
    apply List.map_congr_left
    intro cat _
    exact List.countP_append _ _ _
  rw [htb]
  push_cast
  ring

/-- Claim C1 (a code bug): the score the part_001 handler attaches to
the result at each rank is 1 - rank / 10, a function of the rank alone;
whatever similarity the ranker computed is discarded. -/
theorem part001_scores_rank_only (vectorResults : List Opportunity) :
    (part001Format vectorResults).map (fun r => r.score)
      = (List.range vectorResults.length).map (fun i : ℕ => 1 - (i : ℚ) / 10) := by
  unfold part001Format
  apply List.ext_getElem
  · simp
  · intro i h1 h2
    simp only [List.getElem_map, List.getElem_mapIdx, List.getElem_range]

/-- Counterexample to claim C4: on a failed embedding call the part_001
handler answers with a 500 error response instead of falling back to the
lexical scorer. -/
theorem vec_handler_error_surfaces_cex :
    semanticSearchVec (some "kids")
        (Except.error "Python script failed: spawn ENOENT")
      = VecResponse.serverError "Vector search failed"
          "Python script failed: spawn ENOENT" := by
  rfl

/-- Claim C4 as amended: for every request with a valid query whose
embedding call fails, the handler does not fall back to the lexical
scorer; the caught error is surfaced to the caller as a 500 response
with the error and details fields. -/
theorem vec_handler_error_response (query : Option String) (err : String)
    (h : jsFalsyStr query = false) :
    semanticSearchVec query (Except.error err)
      = VecResponse.serverError "Vector search failed" err := by
  unfold semanticSearchVec
  simp [h]

/-- Witness for the amended claim C4 at a concrete input. -/
theorem vec_handler_error_response_witness :
    semanticSearchVec (some "sports") (Except.error "boom")
      = VecResponse.serverError "Vector search failed" "boom" :=
  vec_handler_error_response (some "sports") "boom" (by decide)

/-- Claim C3: the returned result list is sorted by non-increasing score,
and results with equal scores keep catalog insertion order: filtering the
sorted list at any fixed score value gives exactly the corresponding
filtering of the scored candidate list, in the same order. The response
list is the limit-truncated prefix of the sorted list. -/
theorem lex_results_sorted_stable (catalog : List Opportunity)
    (query : Option String) (p : LimitParam) (now : ℚ) :
    List.Pairwise (fun a b : ScoredResult => b.score ≤ a.score)
        (lexResults catalog query p now)
    ∧ (∀ s : ℚ, (sortedScored catalog query now).filter (fun x => x.1 == s)
        = (scoredCandidates catalog query now).filter (fun x => x.1 == s))
    ∧ lexResults catalog query p now
        = ((sortedScored catalog query now).take (sliceBound p)).map
            (fun s => ⟨s.1, s.2⟩) := by
  refine ⟨?_, ?_, rfl⟩
  · have hs : List.Pairwise (fun a b => scoreLe a b = true)
        ((scoredCandidates catalog query now).mergeSort scoreLe) :=
      List.sorted_mergeSort scoreLe_trans scoreLe_total _
    unfold lexResults
    rw [List.pairwise_map]
    refine List.Pairwise.sublist (List.take_sublist _ _) ?_
    unfold sortedScored
    refine hs.imp ?_
    intro a b hab
    simpa [scoreLe] using hab
  · intro s
    unfold sortedScored
    have hpair : ((scoredCandidates catalog query now).filter
        (fun x => x.1 == s)).Pairwise (fun a b => scoreLe a b = true) := by
      apply List.pairwise_of_forall_mem_list
      intro a ha b hb
      have ha2 := (List.mem_filter.mp ha).2
      have hb2 := (List.mem_filter.mp hb).2
      simp only [beq_iff_eq] at ha2 hb2
      simp [scoreLe, ha2, hb2]
    have h1 : List.Sublist
        ((scoredCandidates catalog query now).filter (fun x => x.1 == s))
        ((scoredCandidates catalog query now).mergeSort scoreLe) :=
      List.sublist_mergeSort scoreLe_trans scoreLe_total hpair
        (List.filter_sublist _)
    have h2 := h1.filter (fun x => x.1 == s)
    rw [List.filter_filter] at h2
    have h2' : List.Sublist
        ((scoredCandidates catalog query now).filter (fun x => x.1 == s))
        (((scoredCandidates catalog query now).mergeSort scoreLe).filter
          (fun x => x.1 == s)) := by
      simpa using h2
    have hlen : (((scoredCandidates catalog query now).mergeSort scoreLe).filter
          (fun x => x.1 == s)).length
        = ((scoredCandidates catalog query now).filter (fun x => x.1 == s)).length :=
      ((List.mergeSort_perm _ scoreLe).filter _).length_eq
    exact (h2'.eq_of_length hlen.symm).symm

/-- Counterexample to claim C5: the same catalog, query and parameters
give different result lists when the two runs happen at different clock
times, because the recency boost reads the current time. -/
theorem lex_search_time_dependent_cex :
    semanticSearchLex [oppDated] (some "z") .absent 0
      ≠ semanticSearchLex [oppDated] (some "z") .absent (86400000 * 600) := by
  have h1 : overlapLoop (hayOf oppDated) (tokenizeQuery (some "z")) = 0 := by
    decide
  have h2 : tagBoostLoop (catsOf oppDated) (tokenizeQuery (some "z")) = 0 := by
    decide
  have e0 : scoreOpportunity oppDated (some "z") 0 = 10 := by
    have h3 := recencyBoostOf_of_date oppDated 0 0 rfl
    unfold scoreOpportunity scoreTokens
    rw [h1, h2, h3]
    norm_num [msPerDay]
  have e1 : scoreOpportunity oppDated (some "z") (86400000 * 600) = 0 := by
    have h3 := recencyBoostOf_of_date oppDated (86400000 * 600) 0 rfl
    unfold scoreOpportunity scoreTokens
    rw [h1, h2, h3]
    norm_num [msPerDay]
  have hq : jsFalsyStr (some "z") = false := by decide
  unfold semanticSearchLex
  rw [lexResults_singleton, lexResults_singleton, e0, e1]
  simp [hq]

/-- Claim C5 as amended: the search output is a deterministic function of
catalog, query, parameters and the current clock time; when no catalog
item carries a last-updated date the output is independent of the clock,
but a dated item makes runs at different times differ. -/
theorem lex_search_deterministic_without_dates (catalog : List Opportunity)
    (query : Option String) (p : LimitParam) (now1 now2 : ℚ)
    (h : ∀ o ∈ catalog, o.last_updated.bind LastUpdated.date = none) :
    semanticSearchLex catalog query p now1
      = semanticSearchLex catalog query p now2 := by
  have hsc : scoredCandidates catalog query now1
      = scoredCandidates catalog query now2 := by
    unfold scoredCandidates
    apply List.map_congr_left
    intro doc hdoc
    have hd := h doc (List.take_subset 500 catalog hdoc)
    unfold scoreOpportunity scoreTokens
    rw [recencyBoostOf_of_no_date doc now1 hd, recencyBoostOf_of_no_date doc now2 hd]
  unfold semanticSearchLex lexResults sortedScored
  rw [hsc]

/-- Witness for the amended claim C5 at a concrete input. -/
theorem lex_search_deterministic_without_dates_witness :
    semanticSearchLex [oppEmpty] (some "z") .absent 0
      = semanticSearchLex [oppEmpty] (some "z") .absent 12345 :=
  lex_search_deterministic_without_dates [oppEmpty] (some "z") .absent 0 12345
    (by
      intro o ho
      simp only [List.mem_singleton] at ho
      subst ho
      rfl)

/-- Claim C6: a missing or empty query is answered 400 before any
scoring work (the response does not depend on the catalog), and a
present non-empty query never yields the 400 validation response. -/
theorem lex_query_validation (catalog : List Opportunity) (query : Option String)
    (p : LimitParam) (now : ℚ) :
    ((query = none ∨ query = some "") ↔ jsFalsyStr query = true)
    ∧ (jsFalsyStr query = true →
        semanticSearchLex catalog query p now
          = .badRequest "Missing or invalid searchQuery in URL"
        ∧ semanticSearchLex catalog query p now = semanticSearchLex [] query p now)
    ∧ (jsFalsyStr query = false →
        ∀ e, semanticSearchLex catalog query p now ≠ .badRequest e) := by
  refine ⟨?_, ?_, ?_⟩
  · cases query with
    | none => simp [jsFalsyStr]
    | some s => simp [jsFalsyStr]
  · intro hf
    constructor
    · unfold semanticSearchLex
      simp [hf]
    · unfold semanticSearchLex
      simp [hf]
  · intro hf e
    unfold semanticSearchLex
    simp [hf]

/-- Witness for claim C6 at concrete inputs. -/
theorem lex_query_validation_witness :
    semanticSearchLex [] (none : Option String) .absent 0
      = .badRequest "Missing or invalid searchQuery in URL"
    ∧ semanticSearchLex [] (some "kids") .absent 0
      ≠ .badRequest "Missing or invalid searchQuery in URL" :=
  ⟨((lex_query_validation [] none .absent 0).2.1 (by decide)).1,
   (lex_query_validation [] (some "kids") .absent 0).2.2 (by decide) _⟩

/-- Claim C7: the response list is the order-preserving truncation of the
sorted candidate list to the effective limit; a positive numeric limit is
used as given, while zero, negative, NaN or absent limits fall back to
the documented default of 10 rather than to returning everything. -/
theorem lex_limit_truncation (catalog : List Opportunity) (query : Option String)
    (p : LimitParam) (now : ℚ) :
    lexResults catalog query p now
      = ((sortedScored catalog query now).take (sliceBound p)).map
          (fun s => ⟨s.1, s.2⟩)
    ∧ (lexResults catalog query p now).length ≤ sliceBound p
    ∧ sliceBound p = ⌊effLimit p⌋.toNat
    ∧ (∀ v : ℚ, p = .num v → 0 < v → effLimit p = v)
    ∧ (∀ v : ℚ, p = .num v → v ≤ 0 → effLimit p = 10)
    ∧ (p = .absent → effLimit p = 10)
    ∧ (p = .nan → effLimit p = 10) := by
  refine ⟨rfl, ?_, rfl, ?_, ?_, ?_, ?_⟩
  · unfold lexResults
    rw [List.length_map]
    exact List.length_take_le _ _
  · intro v hv hpos
    subst hv
    simp [effLimit, hpos]
  · intro v hv hnp
    subst hv
    simp [effLimit, show ¬ 0 < v from not_lt.mpr hnp]
  · intro hv
    subst hv
    rfl
  · intro hv
    subst hv
    rfl

/-- Witness for claim C7 at concrete limit values. -/
theorem lex_limit_truncation_witness :
    effLimit (.num 7) = 7 ∧ effLimit (.num (-3)) = 10 ∧ effLimit (.num 0) = 10
    ∧ effLimit .absent = 10 ∧ effLimit .nan = 10 :=
  ⟨(lex_limit_truncation [] none (.num 7) 0).2.2.2.1 7 rfl (by norm_num),
   (lex_limit_truncation [] none (.num (-3)) 0).2.2.2.2.1 (-3) rfl (by norm_num),
   (lex_limit_truncation [] none (.num 0) 0).2.2.2.2.1 0 rfl (by norm_num),
   (lex_limit_truncation [] none .absent 0).2.2.2.2.2.1 rfl,
   (lex_limit_truncation [] none .nan 0).2.2.2.2.2.2 rfl⟩

/-- Claim C10: every result returned by the lexical search handler comes
from the first 500 catalog documents; an opportunity beyond that initial
segment can never appear in the response. -/
theorem lex_scores_only_first_500 (catalog : List Opportunity)
    (query : Option String) (p : LimitParam) (now : ℚ) (r : ScoredResult)
    (h : r ∈ lexResults catalog query p now) :
    r.opportunity ∈ catalog.take 500 := by
  unfold lexResults at h
  obtain ⟨s, hs, rfl⟩ := List.mem_map.mp h
  have hs1 : s ∈ sortedScored catalog query now :=
    (List.take_sublist _ _).subset hs
  have hs2 : s ∈ scoredCandidates catalog query now :=
    (List.mergeSort_perm _ scoreLe).subset hs1
  unfold scoredCandidates at hs2
  obtain ⟨doc, hdoc, hfd⟩ := List.mem_map.mp hs2
  subst hfd
  exact hdoc

/-- Witness for claim C10 at a concrete input. -/
theorem lex_scores_only_first_500_witness :
    oppEmpty ∈ ([oppEmpty].take 500) := by
  have h : (⟨scoreOpportunity oppEmpty (some "z") 0, oppEmpty⟩ : ScoredResult)
      ∈ lexResults [oppEmpty] (some "z") .absent 0 := by
    rw [lexResults_singleton]
    exact List.mem_singleton.mpr rfl
  exact lex_scores_only_first_500 [oppEmpty] (some "z") .absent 0 _ h

end LinkUp
